import Mathlib

/-!
Verification of the per-connection driver of `swarm/src/connection.rs`.

The Rust code is a cooperative, poll-based state machine.  The shallow
embedding below represents it as pure Lean functions:

* `Instant` and `Duration` are `Nat`; a `futures_timer::Delay` is modelled
  by the absolute instant at which it fires, so polling a delay at time
  `now` is ready exactly when `fire <= now`.  `Delay::new(dur)` created at
  time `now` therefore becomes `now + dur`, and `Delay::reset(dur)` at time
  `now` becomes `now + dur` as well.
* External collaborators (the `ConnectionHandler`, the `StreamMuxerBox` and
  the negotiation futures produced by `upgrade::apply_inbound` and
  `upgrade::apply_outbound`) are oracles: functions from a call counter
  (for the handler and the muxer) or from the current time (for upgrade
  futures) to the value the collaborator produces.  One invocation of
  `Connection::poll` happens at a single instant `now`.
* Rust panics (`panic!`, `expect`) are modelled with `Except String`.
* Events handed to the handler through `on_connection_event` are recorded
  in a trace list.
* The `loop` in `Connection::poll` is modelled with explicit fuel; `none`
  means the fuel was exhausted before the function returned.
-/

namespace Swarm

/-- Model of `std::task::Poll`. -/
inductive Poll (α : Type) where
  | Ready (a : α)
  | Pending
deriving DecidableEq, Repr

/-- True when the poll result is `Ready`. -/
def Poll.isReady {α : Type} : Poll α → Bool
  | .Ready _ => true
  | .Pending => false

/-- Model of `KeepAlive` (crate root): `Yes`, `No` or `Until(instant)`. -/
inductive KeepAlive where
  | Yes
  | No
  | Until (t : Nat)
deriving DecidableEq, Repr

/-- Model of the private `Shutdown` enum.  In `Later (timer, deadline)` the
`timer` is the absolute instant at which the `Delay` fires. -/
inductive Shutdown where
  | None
  | Asap
  | Later (timer : Nat) (deadline : Nat)
deriving DecidableEq, Repr

/-- Model of `Instant::checked_duration_since`: `t.checked_duration_since(now)`
is `some (t - now)` when `now <= t` and `none` otherwise. -/
def checkedDurationSince (t now : Nat) : Option Nat :=
  if now ≤ t then some (t - now) else none

/-- The keep-alive evaluation of `Connection::poll` (the
`match (&mut *shutdown, keep_alive)` block): computes the new shutdown plan
from the current plan and the value of `connection_keep_alive()`, at time
`now`.  Arms are in source order. -/
def applyKeepAlive (shutdown : Shutdown) (keep_alive : KeepAlive) (now : Nat) : Shutdown :=
  match shutdown, keep_alive with
  | .Later timer deadline, .Until t =>
    if deadline ≠ t then
      match checkedDurationSince t now with
      | some dur => .Later (now + dur) t
      | none => .Later timer t
    else .Later timer deadline
  | sd, .Until t =>
    match checkedDurationSince t now with
    | some dur => .Later (now + dur) t
    | none => sd
  | _, .No => .Asap
  | _, .Yes => .None

/-- The shutdown check of `Connection::poll` restricted to the decision
whether it returns `KeepAliveTimeout` (given that all three substream
collections are empty): plan `None` never fires, `Asap` always fires, and
`Later (timer, _)` fires exactly when polling the delay is ready. -/
def shutdownReady (shutdown : Shutdown) (now : Nat) : Bool :=
  match shutdown with
  | .None => false
  | .Asap => true
  | .Later timer _ => timer ≤ now

/-- True when `b` is a UTF-8 continuation byte (`10xxxxxx`). -/
def contByte (b : Nat) : Bool := 0x80 ≤ b && b ≤ 0xBF

/-- UTF-8 validity of a byte sequence, per RFC 3629 (rejecting overlong
encodings, surrogates and code points above `U+10FFFF`).  This is the check
performed by `String::from_utf8`. -/
def validUtf8 : List Nat → Bool
  | [] => true
  | b :: rest =>
    if b ≤ 0x7F then validUtf8 rest
    else if 0xC2 ≤ b && b ≤ 0xDF then
      match rest with
      | c1 :: r => contByte c1 && validUtf8 r
      | [] => false
    else if b = 0xE0 then
      match rest with
      | c1 :: c2 :: r => (0xA0 ≤ c1 && c1 ≤ 0xBF) && contByte c2 && validUtf8 r
      | _ => false
    else if (0xE1 ≤ b && b ≤ 0xEC) || b = 0xEE || b = 0xEF then
      match rest with
      | c1 :: c2 :: r => contByte c1 && contByte c2 && validUtf8 r
      | _ => false
    else if b = 0xED then
      match rest with
      | c1 :: c2 :: r => (0x80 ≤ c1 && c1 ≤ 0x9F) && contByte c2 && validUtf8 r
      | _ => false
    else if b = 0xF0 then
      match rest with
      | c1 :: c2 :: c3 :: r =>
        (0x90 ≤ c1 && c1 ≤ 0xBF) && contByte c2 && contByte c3 && validUtf8 r
      | _ => false
    else if 0xF1 ≤ b && b ≤ 0xF3 then
      match rest with
      | c1 :: c2 :: c3 :: r => contByte c1 && contByte c2 && contByte c3 && validUtf8 r
      | _ => false
    else if b = 0xF4 then
      match rest with
      | c1 :: c2 :: c3 :: r =>
        (0x80 ≤ c1 && c1 ≤ 0x8F) && contByte c2 && contByte c3 && validUtf8 r
      | _ => false
    else false

/-- Byte-lexicographic `<=` on protocol names.  A Rust `String` compares by
its UTF-8 bytes, so `Vec::<String>::sort` orders names exactly this way. -/
def leBytes : List Nat → List Nat → Bool
  | [], _ => true
  | _ :: _, [] => false
  | a :: as, b :: bs => if a < b then true else if a = b then leBytes as bs else false

/-- Insertion into a list sorted by `leBytes` (helper of `sortProtocols`). -/
def insertProtocol (x : List Nat) : List (List Nat) → List (List Nat)
  | [] => [x]
  | y :: ys => if leBytes x y then x :: y :: ys else y :: insertProtocol x ys

/-- Model of `new_protocols.sort()`: stable sort by byte-lexicographic order.
Since `leBytes` is a total order (antisymmetric up to equality), insertion
sort computes the same list as any correct sort. -/
def sortProtocols : List (List Nat) → List (List Nat)
  | [] => []
  | x :: xs => insertProtocol x (sortProtocols xs)

/-- Boolean sortedness by `leBytes` of adjacent elements. -/
def sortedProtocols : List (List Nat) → Bool
  | [] => true
  | [_] => true
  | a :: b :: r => leBytes a b && sortedProtocols (b :: r)

/-- The protocol collection step of the inbound-acceptance arm of
`Connection::poll`: from the protocol names of `listen_protocol().upgrade()`,
keep those decodable as UTF-8 (`String::from_utf8(..).ok()` in the source,
modelled as a validity filter on the byte sequences) and sort ascending. -/
def collectProtocols (infos : List (List Nat)) : List (List Nat) :=
  sortProtocols (infos.filterMap fun i => if validUtf8 i then some i else none)

/-- The comparison step of the inbound-acceptance arm: if the collected list
differs from `supported_protocols`, a `ProtocolsChange` event with the new
list is produced and `supported_protocols` is overwritten; otherwise nothing
happens.  Returns the optional event payload and the new
`supported_protocols`. -/
def protocolsChangeStep (supported : List (List Nat)) (infos : List (List Nat)) :
    Option (List (List Nat)) × List (List Nat) :=
  let new_protocols := collectProtocols infos
  if supported ≠ new_protocols then (some new_protocols, new_protocols)
  else (none, supported)

/-- Iterated `protocolsChangeStep` over a sequence of `listen_protocol()`
results: the list of optional `ProtocolsChange` payloads, one per accepted
inbound substream. -/
def protocolsChangeRun (supported : List (List Nat)) :
    List (List (List Nat)) → List (Option (List (List Nat)))
  | [] => []
  | infos :: rest =>
    let step := protocolsChangeStep supported infos
    step.1 :: protocolsChangeRun step.2 rest

/-- Behaviour of a negotiation future (the result of `upgrade::apply_inbound`
or `upgrade::apply_outbound`): what polling it at a given instant yields. -/
def UpgFun (E O : Type) : Type := Nat → Poll (Except E O)

/-- Model of `ConnectionHandlerUpgrErr`. -/
inductive ConnectionHandlerUpgrErr (E : Type) where
  | Timeout
  | Timer
  | Upgrade (e : E)
deriving DecidableEq, Repr

/-- Model of `SubstreamUpgrade`:  an in-flight upgrade with its user data
(consumed on resolution), the absolute fire time of its timeout `Delay`, and
the negotiation future. -/
structure SubstreamUpgrade (U E O : Type) where
  user_data : Option U
  timeout : Nat
  upgrade : UpgFun E O

/-- Model of `SubstreamUpgrade::new_outbound`: wraps an extracted outbound
request.  The `timeout` is the `Delay` returned by
`SubstreamRequested::extract`, stored unchanged (still ticking).  The version
override only parameterizes the negotiation future built by
`upgrade::apply_outbound`, which the model represents by the oracle `g`. -/
def SubstreamUpgrade.new_outbound {U E O : Type} (user_data : U) (timeout : Nat)
    (g : UpgFun E O) : SubstreamUpgrade U E O :=
  { user_data := some user_data, timeout := timeout, upgrade := g }

/-- Model of an inbound upgrade as handed out by `listen_protocol()`: the
protocol names it advertises (byte sequences) and the behaviour of the
negotiation future built from it by `upgrade::apply_inbound`. -/
structure InboundUpgrade (E O : Type) where
  protocol_info : List (List Nat)
  apply : UpgFun E O

/-- Model of `SubstreamProtocol`: an upgrade, the open info, and the timeout
as a duration. -/
structure SubstreamProtocol (G U : Type) where
  upgrade : G
  info : U
  timeout : Nat

/-- Model of `SubstreamUpgrade::new_inbound`, built at acceptance time `now`:
a fresh `Delay::new(timeout)` starts at `now`. -/
def SubstreamUpgrade.new_inbound {UI E O : Type}
    (protocol : SubstreamProtocol (InboundUpgrade E O) UI) (now : Nat) :
    SubstreamUpgrade UI E O :=
  { user_data := some protocol.info
    timeout := now + protocol.timeout
    upgrade := protocol.upgrade.apply }

/-- Model of `Future::poll` for `SubstreamUpgrade`: the timeout is polled
first; if elapsed the future resolves with `Err(Timeout)`; otherwise the
negotiation future is polled.  Every resolution takes the user data; the
`expect` on an already-taken user data is modelled as `Except.error`. -/
def SubstreamUpgrade.poll {U E O : Type} (s : SubstreamUpgrade U E O) (now : Nat) :
    Except String (Poll (U × Except (ConnectionHandlerUpgrErr E) O) × SubstreamUpgrade U E O) :=
  match (if s.timeout ≤ now then Poll.Ready () else Poll.Pending) with
  | .Ready () =>
    match s.user_data with
    | some u => .ok (.Ready (u, .error .Timeout), { s with user_data := none })
    | none => .error "Future not to be polled again once ready."
  | .Pending =>
    match s.upgrade now with
    | .Ready (.ok out) =>
      match s.user_data with
      | some u => .ok (.Ready (u, .ok out), { s with user_data := none })
      | none => .error "Future not to be polled again once ready."
    | .Ready (.error err) =>
      match s.user_data with
      | some u => .ok (.Ready (u, .error (.Upgrade err)), { s with user_data := none })
      | none => .error "Future not to be polled again once ready."
    | .Pending => .ok (.Pending, s)

/-- Model of `SubstreamRequested`: either still waiting (with the absolute
fire time of its timeout `Delay` and, as a `Bool`, whether a waker has been
stored) or already extracted (`Done`). -/
inductive SubstreamRequested (U E O : Type) where
  | Waiting (user_data : U) (timeout : Nat) (upgrade : UpgFun E O) (extracted_waker : Bool)
  | Done

/-- Model of `SubstreamRequested::new` called at time `now` with a timeout
duration: the `Delay` starts ticking immediately, so it fires at
`now + timeout`. -/
def SubstreamRequested.new {U E O : Type} (user_data : U) (timeout : Nat)
    (upgrade : UpgFun E O) (now : Nat) : SubstreamRequested U E O :=
  .Waiting user_data (now + timeout) upgrade false

/-- Model of `SubstreamRequested::extract`: `mem::replace(self, Done)`, then
return the data and wake the stored waker (the returned `Bool` records
whether a waker was woken).  Extracting an already-`Done` request is the
`panic!("cannot extract twice")`. -/
def SubstreamRequested.extract {U E O : Type} :
    SubstreamRequested U E O →
      Except String ((U × Nat × UpgFun E O) × SubstreamRequested U E O × Bool)
  | .Waiting user_data timeout upgrade waker => .ok ((user_data, timeout, upgrade), .Done, waker)
  | .Done => .error "cannot extract twice"

/-- Model of `Future::poll` for `SubstreamRequested`: `mem::replace` with
`Done`, then a `Waiting` request whose timeout elapsed resolves
`Err(user_data)` and stays `Done`; a pending one is re-stored with the waker
captured; a `Done` request resolves `Ok(())`. -/
def SubstreamRequested.poll {U E O : Type} (r : SubstreamRequested U E O) (now : Nat) :
    Poll (Except U Unit) × SubstreamRequested U E O :=
  match r with
  | .Waiting user_data timeout upgrade _ =>
    if timeout ≤ now then (.Ready (.error user_data), .Done)
    else (.Pending, .Waiting user_data timeout upgrade true)
  | .Done => (.Ready (.ok ()), .Done)

/-- Initial value of the `NEXT_CONNECTION_ID` atomic counter. -/
def NEXT_CONNECTION_ID : Nat := 1

/-- Modulus of a 64-bit `usize` (the wrap-around of `fetch_add`). -/
def usizeSize : Nat := 2 ^ 64

/-- The reserved `ConnectionId::DUMMY` sentinel. -/
def ConnectionId.DUMMY : Nat := 0

/-- Model of `ConnectionId::next`: `fetch_add(1, SeqCst)` on the shared
counter returns the old value as the id and stores the incremented value
(wrapping at the `usize` width). -/
def ConnectionId.next (counter : Nat) : Nat × Nat :=
  (counter, (counter + 1) % usizeSize)

/-- The ids produced by `k` successive calls of `ConnectionId::next`
starting from a given counter value. -/
def ConnectionId.nextIds (counter : Nat) : Nat → List Nat
  | 0 => []
  | k + 1 =>
    (ConnectionId.next counter).1 :: ConnectionId.nextIds (ConnectionId.next counter).2 k

/-- Model of `ConnectionHandlerEvent` together with `Poll::Pending`: one
answer of `handler.poll(cx)`. -/
inductive HandlerPoll (UO E O C HE : Type) where
  | Pending
  | OutboundSubstreamRequest (protocol : SubstreamProtocol (UpgFun E O) UO)
  | Custom (event : C)
  | Close (error : HE)

/-- One answer of `muxing.poll_unpin(cx)` (muxer events), with the `?`
propagated error. -/
inductive MuxerPoll (A IE : Type) where
  | Pending
  | AddressChange (addr : A)
  | Err (e : IE)

/-- One answer of `muxing.poll_outbound_unpin(cx)` or
`muxing.poll_inbound_unpin(cx)`; the substream itself carries no data in the
model. -/
inductive MuxerStreamPoll (IE : Type) where
  | Pending
  | Ready
  | Err (e : IE)

/-- The external collaborators of the driver, as oracles: each field maps
the number of calls made so far to the answer of the next call. -/
structure Env (UO UI E O C HE A IE : Type) where
  handler_poll : Nat → HandlerPoll UO E O C HE
  connection_keep_alive : Nat → KeepAlive
  listen_protocol : Nat → SubstreamProtocol (InboundUpgrade E O) UI
  muxer_poll : Nat → MuxerPoll A IE
  muxer_poll_outbound : Nat → MuxerStreamPoll IE
  muxer_poll_inbound : Nat → MuxerStreamPoll IE

/-- Number of calls made to each oracle so far. -/
structure Counters where
  handler_polls : Nat
  keep_alives : Nat
  listen_protocols : Nat
  muxer_polls : Nat
  muxer_outbounds : Nat
  muxer_inbounds : Nat
deriving DecidableEq, Repr

/-- Model of `ConnectionEvent`, the events delivered to the handler through
`on_connection_event`. -/
inductive ConnectionEvent (UO UI E O A : Type) where
  | FullyNegotiatedInbound (protocol : O) (info : UI)
  | FullyNegotiatedOutbound (protocol : O) (info : UO)
  | AddressChange (new_address : A)
  | DialUpgradeError (info : UO) (error : ConnectionHandlerUpgrErr E)
  | ListenUpgradeError (info : UI) (error : ConnectionHandlerUpgrErr E)
  | ProtocolsChange (protocols : List (List Nat))
deriving DecidableEq, Repr

/-- Model of `Event`, the success values of `Connection::poll`. -/
inductive Event (C A : Type) where
  | Handler (event : C)
  | AddressChange (addr : A)
deriving DecidableEq, Repr

/-- Model of `ConnectionError`. -/
inductive ConnectionError (HE IE : Type) where
  | Handler (e : HE)
  | KeepAliveTimeout
  | IOErr (e : IE)
deriving DecidableEq, Repr

/-- Outcome of one invocation of `Connection::poll`: pending, an event, an
error, or a Rust panic (`Fatal`). -/
inductive PollResult (C A HE IE : Type) where
  | Pending
  | Ok (event : Event C A)
  | Err (e : ConnectionError HE IE)
  | Fatal (message : String)
deriving DecidableEq, Repr

/-- Model of the `Connection` struct.  The muxer and the handler are
external (they live in `Env`); `negotiating_in`, `negotiating_out` and
`requested_substreams` model the three `FuturesUnordered` collections as
lists. -/
structure Connection (UO UI E O : Type) where
  negotiating_in : List (SubstreamUpgrade UI E O)
  negotiating_out : List (SubstreamUpgrade UO E O)
  shutdown : Shutdown
  substream_upgrade_protocol_override : Option Nat
  max_negotiating_inbound_streams : Nat
  requested_substreams : List (SubstreamRequested UO E O)
  supported_protocols : List (List Nat)

/-- The trace of events delivered to the handler. -/
abbrev Trace (UO UI E O A : Type) := List (ConnectionEvent UO UI E O A)

/-- Result of one iteration of the `loop` in `Connection::poll`: `none` in
the first component means `continue`. -/
abbrev StepRes (UO UI E O C HE A IE : Type) :=
  Option (PollResult C A HE IE) × Connection UO UI E O × Counters × Trace UO UI E O A

/-- Model of `requested_substreams.poll_next_unpin(cx)`: poll the elements
in order; the first resolved one is removed from the collection and its
output yielded; otherwise all elements are re-stored (each `Waiting` one now
holding a waker) and the result is `Pending` (`Ready none` when empty). -/
def pollNextRequested {U E O : Type} (now : Nat) :
    List (SubstreamRequested U E O) →
      Poll (Option (Except U Unit)) × List (SubstreamRequested U E O)
  | [] => (.Ready none, [])
  | r :: rest =>
    match r.poll now with
    | (.Ready out, _) => (.Ready (some out), rest)
    | (.Pending, r1) =>
      match pollNextRequested now rest with
      | (.Ready (some out), rest1) => (.Ready (some out), r1 :: rest1)
      | (_, rest1) => (.Pending, r1 :: rest1)

/-- Model of `poll_next_unpin` on a collection of `SubstreamUpgrade`s:
the first resolved element is removed and yielded. -/
def pollNextUpgrades {U E O : Type} (now : Nat) :
    List (SubstreamUpgrade U E O) →
      Except String
        (Poll (Option (U × Except (ConnectionHandlerUpgrErr E) O)) ×
          List (SubstreamUpgrade U E O))
  | [] => .ok (.Ready none, [])
  | u :: rest =>
    match u.poll now with
    | .error m => .error m
    | .ok (.Ready out, _) => .ok (.Ready (some out), rest)
    | .ok (.Pending, u1) =>
      match pollNextUpgrades now rest with
      | .error m => .error m
      | .ok (.Ready (some out), rest1) => .ok (.Ready (some out), u1 :: rest1)
      | .ok (.Ready none, rest1) => .ok (.Pending, u1 :: rest1)
      | .ok (.Pending, rest1) => .ok (.Pending, u1 :: rest1)

section PollLoop

variable {UO UI E O C HE A IE : Type}

/-- Inbound stream acceptance (the `if negotiating_in.len() < ...` block at
the bottom of the loop) followed by the final `return Poll::Pending`. -/
def pollPhaseInbound (env : Env UO UI E O C HE A IE) (now : Nat)
    (s : Connection UO UI E O) (k : Counters) (tr : Trace UO UI E O A) :
    StepRes UO UI E O C HE A IE :=
  if s.negotiating_in.length < s.max_negotiating_inbound_streams then
    let k1 := { k with muxer_inbounds := k.muxer_inbounds + 1 }
    match env.muxer_poll_inbound k.muxer_inbounds with
    | .Err e => (some (.Err (.IOErr e)), s, k1, tr)
    | .Pending => (some .Pending, s, k1, tr)
    | .Ready =>
      let protocol := env.listen_protocol k.listen_protocols
      let k2 := { k1 with listen_protocols := k.listen_protocols + 1 }
      let step := protocolsChangeStep s.supported_protocols protocol.upgrade.protocol_info
      let tr1 := match step.1 with
        | some ps => tr ++ [ConnectionEvent.ProtocolsChange ps]
        | none => tr
      let s1 := { s with
        supported_protocols := step.2
        negotiating_in := s.negotiating_in ++ [SubstreamUpgrade.new_inbound protocol now] }
      (none, s1, k2, tr1)
  else
    (some .Pending, s, k, tr)

/-- Outbound stream allocation (the `if let Some(requested_substream)`
block): when a request is queued, ask the muxer for an outbound substream;
on success extract the first request and push the upgrade (with the
still-ticking timeout) into `negotiating_out`. -/
def pollPhaseOutbound (env : Env UO UI E O C HE A IE) (now : Nat)
    (s : Connection UO UI E O) (k : Counters) (tr : Trace UO UI E O A) :
    StepRes UO UI E O C HE A IE :=
  match s.requested_substreams with
  | [] => pollPhaseInbound env now s k tr
  | r :: rest =>
    let k1 := { k with muxer_outbounds := k.muxer_outbounds + 1 }
    match env.muxer_poll_outbound k.muxer_outbounds with
    | .Err e => (some (.Err (.IOErr e)), s, k1, tr)
    | .Pending => pollPhaseInbound env now s k1 tr
    | .Ready =>
      match r.extract with
      | .error m => (some (.Fatal m), s, k1, tr)
      | .ok ((user_data, timeout, upgrade), r1, _) =>
        let s1 := { s with
          requested_substreams := r1 :: rest
          negotiating_out :=
            s.negotiating_out ++ [SubstreamUpgrade.new_outbound user_data timeout upgrade] }
        (none, s1, k1, tr)

/-- Muxer event poll (`muxing.poll_unpin(cx)?`): an `AddressChange` is both
delivered to the handler and returned to the caller. -/
def pollPhaseMuxer (env : Env UO UI E O C HE A IE) (now : Nat)
    (s : Connection UO UI E O) (k : Counters) (tr : Trace UO UI E O A) :
    StepRes UO UI E O C HE A IE :=
  let k1 := { k with muxer_polls := k.muxer_polls + 1 }
  match env.muxer_poll k.muxer_polls with
  | .Err e => (some (.Err (.IOErr e)), s, k1, tr)
  | .AddressChange a =>
    (some (.Ok (.AddressChange a)), s, k1, tr ++ [ConnectionEvent.AddressChange a])
  | .Pending => pollPhaseOutbound env now s k1 tr

/-- Keep-alive evaluation followed by the shutdown check: the plan is
recomputed from `connection_keep_alive()`, and only when all three stream
collections are empty is it acted upon. -/
def pollPhaseShutdown (env : Env UO UI E O C HE A IE) (now : Nat)
    (s : Connection UO UI E O) (k : Counters) (tr : Trace UO UI E O A) :
    StepRes UO UI E O C HE A IE :=
  let keep_alive := env.connection_keep_alive k.keep_alives
  let k1 := { k with keep_alives := k.keep_alives + 1 }
  let s1 := { s with shutdown := applyKeepAlive s.shutdown keep_alive now }
  if s1.negotiating_in.isEmpty && s1.negotiating_out.isEmpty &&
      s1.requested_substreams.isEmpty then
    match s1.shutdown with
    | .None => pollPhaseMuxer env now s1 k1 tr
    | .Asap => (some (.Err .KeepAliveTimeout), s1, k1, tr)
    | .Later timer _ =>
      if timer ≤ now then (some (.Err .KeepAliveTimeout), s1, k1, tr)
      else pollPhaseMuxer env now s1 k1 tr
  else pollPhaseMuxer env now s1 k1 tr

/-- Poll of the negotiating inbound streams: a resolved upgrade is reported
to the handler as `FullyNegotiatedInbound` or `ListenUpgradeError` and the
loop continues. -/
def pollPhaseNegotiatingIn (env : Env UO UI E O C HE A IE) (now : Nat)
    (s : Connection UO UI E O) (k : Counters) (tr : Trace UO UI E O A) :
    StepRes UO UI E O C HE A IE :=
  match pollNextUpgrades now s.negotiating_in with
  | .error m => (some (.Fatal m), s, k, tr)
  | .ok (.Ready (some (info, .ok protocol)), l) =>
    (none, { s with negotiating_in := l }, k,
      tr ++ [ConnectionEvent.FullyNegotiatedInbound protocol info])
  | .ok (.Ready (some (info, .error error)), l) =>
    (none, { s with negotiating_in := l }, k,
      tr ++ [ConnectionEvent.ListenUpgradeError info error])
  | .ok (.Ready none, l) =>
    pollPhaseShutdown env now { s with negotiating_in := l } k tr
  | .ok (.Pending, l) =>
    pollPhaseShutdown env now { s with negotiating_in := l } k tr

/-- Poll of the negotiating outbound streams: a resolved upgrade is reported
to the handler as `FullyNegotiatedOutbound` or `DialUpgradeError` and the
loop continues. -/
def pollPhaseNegotiatingOut (env : Env UO UI E O C HE A IE) (now : Nat)
    (s : Connection UO UI E O) (k : Counters) (tr : Trace UO UI E O A) :
    StepRes UO UI E O C HE A IE :=
  match pollNextUpgrades now s.negotiating_out with
  | .error m => (some (.Fatal m), s, k, tr)
  | .ok (.Ready (some (info, .ok protocol)), l) =>
    (none, { s with negotiating_out := l }, k,
      tr ++ [ConnectionEvent.FullyNegotiatedOutbound protocol info])
  | .ok (.Ready (some (info, .error error)), l) =>
    (none, { s with negotiating_out := l }, k,
      tr ++ [ConnectionEvent.DialUpgradeError info error])
  | .ok (.Ready none, l) =>
    pollPhaseNegotiatingIn env now { s with negotiating_out := l } k tr
  | .ok (.Pending, l) =>
    pollPhaseNegotiatingIn env now { s with negotiating_out := l } k tr

/-- Poll of the handler: an `OutboundSubstreamRequest` pushes a new
`SubstreamRequested` (timeout clock starting now) and continues; `Custom`
and `Close` return. -/
def pollPhaseHandler (env : Env UO UI E O C HE A IE) (now : Nat)
    (s : Connection UO UI E O) (k : Counters) (tr : Trace UO UI E O A) :
    StepRes UO UI E O C HE A IE :=
  let k1 := { k with handler_polls := k.handler_polls + 1 }
  match env.handler_poll k.handler_polls with
  | .Pending => pollPhaseNegotiatingOut env now s k1 tr
  | .OutboundSubstreamRequest protocol =>
    (none,
      { s with requested_substreams := s.requested_substreams ++
          [SubstreamRequested.new protocol.info protocol.timeout protocol.upgrade now] },
      k1, tr)
  | .Custom event => (some (.Ok (.Handler event)), s, k1, tr)
  | .Close error => (some (.Err (.Handler error)), s, k1, tr)

/-- One iteration of the `loop` of `Connection::poll`, starting with the
poll of `requested_substreams`: a request that resolved `Ok(())` is simply
shed; one that timed out produces a `DialUpgradeError(Timeout)` for the
handler; otherwise control falls through to the handler poll. -/
def pollStep (env : Env UO UI E O C HE A IE) (now : Nat)
    (s : Connection UO UI E O) (k : Counters) (tr : Trace UO UI E O A) :
    StepRes UO UI E O C HE A IE :=
  match pollNextRequested now s.requested_substreams with
  | (.Ready (some (.ok _)), reqs) => (none, { s with requested_substreams := reqs }, k, tr)
  | (.Ready (some (.error info)), reqs) =>
    (none, { s with requested_substreams := reqs }, k,
      tr ++ [ConnectionEvent.DialUpgradeError info .Timeout])
  | (.Ready none, reqs) => pollPhaseHandler env now { s with requested_substreams := reqs } k tr
  | (.Pending, reqs) => pollPhaseHandler env now { s with requested_substreams := reqs } k tr

/-- Model of `Connection::poll` at instant `now`: iterate `pollStep` until
it returns, with explicit fuel (`none` = fuel exhausted). -/
def Connection.poll (env : Env UO UI E O C HE A IE) (now : Nat) :
    Nat → Connection UO UI E O → Counters → Trace UO UI E O A →
      Option (PollResult C A HE IE × Connection UO UI E O × Counters × Trace UO UI E O A)
  | 0, _, _, _ => none
  | fuel + 1, s, k, tr =>
    match pollStep env now s k tr with
    | (some r, s1, k1, tr1) => some (r, s1, k1, tr1)
    | (none, s1, k1, tr1) => Connection.poll env now fuel s1 k1 tr1

end PollLoop

/-- Fixture for concrete runs: all oracles pending, keep-alive `No`. -/
def envIdleNo : Env Nat Nat Nat Nat Nat Nat Nat Nat :=
  { handler_poll := fun _ => .Pending
    connection_keep_alive := fun _ => .No
    listen_protocol := fun _ => ⟨⟨[[104]], fun _ => Poll.Pending⟩, 0, 7⟩
    muxer_poll := fun _ => .Pending
    muxer_poll_outbound := fun _ => .Pending
    muxer_poll_inbound := fun _ => .Pending }

/-- Fixture: like `envIdleNo` but keep-alive `Yes` and the muxer reporting
an address change to `42`. -/
def envAddrChange : Env Nat Nat Nat Nat Nat Nat Nat Nat :=
  { envIdleNo with
    connection_keep_alive := fun _ => .Yes
    muxer_poll := fun _ => .AddressChange 42 }

/-- Fixture: a freshly constructed connection (as by `Connection::new`)
with inbound cap 2. -/
def connEmpty : Connection Nat Nat Nat Nat :=
  { negotiating_in := [], negotiating_out := [], shutdown := .None
    substream_upgrade_protocol_override := none
    max_negotiating_inbound_streams := 2
    requested_substreams := [], supported_protocols := [] }

/-- Fixture: all oracle call counters at zero. -/
def counters0 : Counters := ⟨0, 0, 0, 0, 0, 0⟩

/-- C1, counterexample: the transition table of the claim fails on the code
in two places.  With current plan `None` and `KeepAlive::Until(t)` where
`t < now` (here `t = 0`, `now = 5`), `checked_duration_since` yields `None`
and the plan is left at `None`, which is not equivalent to `Asap`: the
shutdown check does not fire.  With current plan `Later(timer, d)` (timer
firing at 10, `d = 10`) and `Until(2)` at `now = 5`, the deadline is
adjusted to 2 but the timer is not reset, so the next shutdown check does
not fire immediately. -/
theorem C1_keep_alive_transition_counterexample :
    (applyKeepAlive Shutdown.None (KeepAlive.Until 0) 5 = Shutdown.None ∧
      shutdownReady (applyKeepAlive Shutdown.None (KeepAlive.Until 0) 5) 5 = false ∧
      shutdownReady Shutdown.Asap 5 = true) ∧
    (applyKeepAlive (Shutdown.Later 10 10) (KeepAlive.Until 2) 5 = Shutdown.Later 10 2 ∧
      shutdownReady (applyKeepAlive (Shutdown.Later 10 10) (KeepAlive.Until 2) 5) 5 = false) := by
  decide

/-- C1, amended: the keep-alive evaluation updates the plan as follows.
`Yes` always yields `None` and `No` always yields `Asap`.  For `Until(t)`
with current plan `Later(timer, d)`: if `t = d` the plan is unchanged;
otherwise the deadline becomes `t`, and the timer is reset to fire at `t`
only when `now <= t` — when `t < now` the timer keeps its old fire time.
For `Until(t)` with current plan `None` or `Asap`: when `now <= t` the plan
becomes `Later` with a new timer firing at `t` (immediately when `t = now`);
when `t < now` the plan is left unchanged (in particular `None` stays
`None`, which is not equivalent to `Asap`). -/
theorem C1_keep_alive_transition_amended (sd : Shutdown) (t now timer deadline : Nat) :
    applyKeepAlive sd .Yes now = .None ∧
    applyKeepAlive sd .No now = .Asap ∧
    applyKeepAlive (.Later timer deadline) (.Until deadline) now = .Later timer deadline ∧
    (deadline ≠ t → now ≤ t →
      applyKeepAlive (.Later timer deadline) (.Until t) now = .Later t t) ∧
    (deadline ≠ t → t < now →
      applyKeepAlive (.Later timer deadline) (.Until t) now = .Later timer t) ∧
    ((sd = .None ∨ sd = .Asap) →
      (now ≤ t → applyKeepAlive sd (.Until t) now = .Later t t) ∧
      (t < now → applyKeepAlive sd (.Until t) now = sd)) := by
  refine ⟨?_, ?_, ?_, ?_, ?_, ?_⟩
  · cases sd <;> rfl
  · cases sd <;> rfl
  · simp [applyKeepAlive]
  · intro hne hle
    simp only [applyKeepAlive, checkedDurationSince, if_pos hle, if_neg (fun h => hne h)]
    rw [if_pos hne]
    simp [Nat.add_sub_cancel' hle]
  · intro hne hlt
    simp only [applyKeepAlive, checkedDurationSince]
    rw [if_pos hne, if_neg (by omega)]
  · rintro (rfl | rfl) <;>
      exact ⟨fun hle => by
          simp [applyKeepAlive, checkedDurationSince, if_pos hle, Nat.add_sub_cancel' hle],
        fun hlt => by simp [applyKeepAlive, checkedDurationSince, Nat.not_le.mpr hlt]⟩

/-- C1, witness for the amended theorem at concrete inputs. -/
theorem C1_keep_alive_transition_amended_witness :
    applyKeepAlive (Shutdown.Later 10 10) (KeepAlive.Until 4) 2 = Shutdown.Later 4 4 ∧
    applyKeepAlive Shutdown.None (KeepAlive.Until 1) 9 = Shutdown.None :=
  ⟨(C1_keep_alive_transition_amended (Shutdown.Later 10 10) 4 2 10 10).2.2.2.1
      (by decide) (by decide),
    ((C1_keep_alive_transition_amended Shutdown.None 1 9 0 0).2.2.2.2.2
      (Or.inl rfl)).2 (by decide)⟩

/-- C7: `SubstreamRequested::extract` on a `Waiting` request transitions it
to `Done` in one step, returns its user data, its still-ticking timeout
`Delay` and its upgrade, and wakes the stored waker exactly when one was
captured; calling it on an already-`Done` request is the
`panic!("cannot extract twice")`. -/
theorem C7_extract_spec :
    ∀ (U E O : Type) (u : U) (t : Nat) (g : UpgFun E O) (w : Bool),
      SubstreamRequested.extract (.Waiting u t g w) = .ok ((u, t, g), .Done, w) ∧
      SubstreamRequested.extract (SubstreamRequested.Done : SubstreamRequested U E O) =
        .error "cannot extract twice" :=
  fun _ _ _ _ _ _ _ => ⟨rfl, rfl⟩

/-- C10: the `Done` state of `SubstreamRequested` is absorbing: a poll that
observes the elapsed timeout resolves `Err(user_data)` and leaves the
request `Done`; once `Done`, every poll at every later instant resolves
`Ok(())` and leaves it `Done`; and extracting a `Done` request (for example
one whose timeout has fired and been reported) panics. -/
theorem C10_done_absorbing :
    ∀ (U E O : Type) (u : U) (t : Nat) (g : UpgFun E O) (w : Bool) (now : Nat),
      (t ≤ now →
        SubstreamRequested.poll (.Waiting u t g w) now = (.Ready (.error u), .Done)) ∧
      SubstreamRequested.poll (SubstreamRequested.Done : SubstreamRequested U E O) now =
        (.Ready (.ok ()), .Done) ∧
      SubstreamRequested.extract (SubstreamRequested.Done : SubstreamRequested U E O) =
        .error "cannot extract twice" := by
  intro U E O u t g w now
  refine ⟨fun h => ?_, rfl, rfl⟩
  simp [SubstreamRequested.poll, h]

/-- C10, witness: a `Waiting` request with timeout fire time 3 polled at
time 5 resolves with its user data and becomes `Done`. -/
theorem C10_done_absorbing_witness :
    SubstreamRequested.poll
        (.Waiting (0 : Nat) 3 (fun _ => Poll.Pending : UpgFun Nat Nat) true) 5 =
      (.Ready (.error 0), .Done) :=
  (C10_done_absorbing Nat Nat Nat 0 3 (fun _ => Poll.Pending) true 5).1 (by decide)

/-- C6: polling a `SubstreamUpgrade` polls the timeout first, so an elapsed
timeout resolves `(user_data, Err(Timeout))` no matter what the underlying
upgrade would do; otherwise the upgrade is polled and a completion resolves
`(user_data, Ok(out))` or `(user_data, Err(Upgrade(e)))`.  Every resolution
consumes the user data, and — provided readiness of the underlying upgrade
is monotone in time, as for any real future — polling again at the same or
a later instant after a resolution hits the
`expect("Future not to be polled again once ready.")` panic. -/
theorem C6_substream_upgrade_poll
    {U E O : Type} (s : SubstreamUpgrade U E O) (u : U) (now : Nat)
    (htag : s.user_data = some u) :
    (s.timeout ≤ now →
      s.poll now = .ok (.Ready (u, .error .Timeout), { s with user_data := none })) ∧
    (now < s.timeout → ∀ o, s.upgrade now = .Ready (.ok o) →
      s.poll now = .ok (.Ready (u, .ok o), { s with user_data := none })) ∧
    (now < s.timeout → ∀ e, s.upgrade now = .Ready (.error e) →
      s.poll now = .ok (.Ready (u, .error (.Upgrade e)), { s with user_data := none })) ∧
    (now < s.timeout → s.upgrade now = .Pending → s.poll now = .ok (.Pending, s)) ∧
    (∀ now' res s1,
      s.poll now = .ok (.Ready res, s1) →
      s1.user_data = none ∧
      (now ≤ now' →
        (∀ a b, a ≤ b → (s.upgrade a).isReady = true → (s.upgrade b).isReady = true) →
        s1.poll now' = .error "Future not to be polled again once ready.")) := by
  refine ⟨fun ht => ?_, fun ht o ho => ?_, fun ht e he => ?_, fun ht hp => ?_,
    fun now' res s1 hres => ?_⟩
  · simp [SubstreamUpgrade.poll, ht, htag]
  · simp [SubstreamUpgrade.poll, Nat.not_le.mpr ht, ho, htag]
  · simp [SubstreamUpgrade.poll, Nat.not_le.mpr ht, he, htag]
  · simp [SubstreamUpgrade.poll, Nat.not_le.mpr ht, hp]
  · by_cases ht : s.timeout ≤ now
    · simp only [SubstreamUpgrade.poll, if_pos ht, htag] at hres
      have hs1 : s1 = { s with user_data := none } := by
        simpa using (congrArg (·.2) (Except.ok.inj hres)).symm
      subst hs1
      refine ⟨rfl, fun hle _ => ?_⟩
      simp [SubstreamUpgrade.poll, Nat.le_trans ht hle]
    · rcases hup : s.upgrade now with x | _
      · rcases x with o | e
        · simp only [SubstreamUpgrade.poll, if_neg ht, hup, htag] at hres
          have hs1 : s1 = { s with user_data := none } := by
            simpa using (congrArg (·.2) (Except.ok.inj hres)).symm
          subst hs1
          refine ⟨rfl, fun hle hmono => ?_⟩
          by_cases ht' : s.timeout ≤ now'
          · simp [SubstreamUpgrade.poll, ht']
          · have hr : (s.upgrade now').isReady = true :=
              hmono now now' hle (by simp [hup, Poll.isReady])
            rcases hup' : s.upgrade now' with y | _
            · rcases y with o' | e' <;>
                simp [SubstreamUpgrade.poll, ht', hup']
            · rw [hup'] at hr
              simp [Poll.isReady] at hr
        · simp only [SubstreamUpgrade.poll, if_neg ht, hup, htag] at hres
          have hs1 : s1 = { s with user_data := none } := by
            simpa using (congrArg (·.2) (Except.ok.inj hres)).symm
          subst hs1
          refine ⟨rfl, fun hle hmono => ?_⟩
          by_cases ht' : s.timeout ≤ now'
          · simp [SubstreamUpgrade.poll, ht']
          · have hr : (s.upgrade now').isReady = true :=
              hmono now now' hle (by simp [hup, Poll.isReady])
            rcases hup' : s.upgrade now' with y | _
            · rcases y with o' | e' <;>
                simp [SubstreamUpgrade.poll, ht', hup']
            · rw [hup'] at hr
              simp [Poll.isReady] at hr
      · simp [SubstreamUpgrade.poll, if_neg ht, hup, htag] at hres

/-- C6, witness: an upgrade whose timeout (fire time 10) has elapsed at time
12 resolves with `Err(Timeout)` and a consumed tag. -/
theorem C6_substream_upgrade_poll_witness :
    SubstreamUpgrade.poll
        ({ user_data := some 0, timeout := 10, upgrade := fun _ => Poll.Pending } :
          SubstreamUpgrade Nat Nat Nat) 12 =
      .ok (.Ready (0, .error .Timeout),
        { user_data := none, timeout := 10, upgrade := fun _ => Poll.Pending }) :=
  (C6_substream_upgrade_poll
      { user_data := some 0, timeout := 10, upgrade := fun _ => Poll.Pending } 0 12 rfl).1
    (by decide)

/-- C4: outbound requests carry one end-to-end timeout.  A
`SubstreamRequested` created when the handler yields
`OutboundSubstreamRequest` at time `t0` with duration `d` holds a `Delay`
firing at `t0 + d`; `extract()` returns that same still-ticking `Delay`
unchanged, and `new_outbound` stores it unchanged, so the upgrade pushed
into `negotiating_out` times out at `t0 + d` regardless of when the muxer
granted the stream.  An inbound upgrade instead gets a fresh `Delay`
started at acceptance time.  The last two conjuncts state the same facts on
the driver loop itself: the request is pushed, clock already running, in
the poll iteration in which the handler yields it, and the outbound
allocation phase hands the unchanged timer to `negotiating_out`. -/
theorem C4_outbound_timeout_end_to_end
    {UO UI E O C HE A IE : Type}
    (env : Env UO UI E O C HE A IE) (now : Nat) (u : UO) (d t0 t1 : Nat)
    (g : UpgFun E O) (p : SubstreamProtocol (InboundUpgrade E O) UI)
    (s : Connection UO UI E O) (k : Counters) (tr : Trace UO UI E O A) :
    (SubstreamRequested.new u d g t0 = .Waiting u (t0 + d) g false) ∧
    ((SubstreamRequested.new u d g t0).extract = .ok ((u, t0 + d, g), .Done, false)) ∧
    ((SubstreamUpgrade.new_outbound u (t0 + d) g : SubstreamUpgrade UO E O).timeout
      = t0 + d) ∧
    ((SubstreamUpgrade.new_inbound p t1).timeout = t1 + p.timeout) ∧
    (s.requested_substreams = [] →
      env.handler_poll k.handler_polls = .OutboundSubstreamRequest ⟨g, u, d⟩ →
      (pollStep env now s k tr).2.1.requested_substreams =
        [SubstreamRequested.new u d g now]) ∧
    (∀ w rest, s.requested_substreams = .Waiting u (t0 + d) g w :: rest →
      env.muxer_poll_outbound k.muxer_outbounds = .Ready →
      (pollPhaseOutbound env now s k tr).2.1.negotiating_out =
        s.negotiating_out ++ [SubstreamUpgrade.new_outbound u (t0 + d) g]) := by
  refine ⟨rfl, rfl, rfl, rfl, fun hreq hpoll => ?_, fun w rest hreq hmux => ?_⟩
  · simp [pollStep, hreq, pollNextRequested, pollPhaseHandler, hpoll,
      SubstreamRequested.new]
  · simp [pollPhaseOutbound, hreq, hmux, SubstreamRequested.extract]

/-- C4, witness: with a concrete environment whose handler yields an
outbound request of duration 7 at time 2, the request enters the queue with
its timer firing at 9. -/
theorem C4_outbound_timeout_end_to_end_witness :
    (pollStep
        ({ handler_poll := fun _ =>
              .OutboundSubstreamRequest ⟨fun _ => Poll.Pending, 0, 7⟩
           connection_keep_alive := fun _ => .Yes
           listen_protocol := fun _ => ⟨⟨[], fun _ => Poll.Pending⟩, 0, 0⟩
           muxer_poll := fun _ => .Pending
           muxer_poll_outbound := fun _ => .Pending
           muxer_poll_inbound := fun _ => .Pending } :
          Env Nat Nat Nat Nat Nat Nat Nat Nat)
        2
        { negotiating_in := [], negotiating_out := [], shutdown := .None
          substream_upgrade_protocol_override := none
          max_negotiating_inbound_streams := 0
          requested_substreams := [], supported_protocols := [] }
        ⟨0, 0, 0, 0, 0, 0⟩ []).2.1.requested_substreams =
      [SubstreamRequested.new (0 : Nat) 7 (fun _ => Poll.Pending) 2] :=
  (C4_outbound_timeout_end_to_end _ 2 0 7 0 0 (fun _ => Poll.Pending)
      ⟨⟨[], fun _ => Poll.Pending⟩, 0, 0⟩ _ _ []).2.2.2.2.1 rfl rfl

/-- The ids of successive `ConnectionId::next` calls are the consecutive
integers while the counter does not wrap. -/
theorem nextIds_eq_range' :
    ∀ (k c : Nat), c + k ≤ usizeSize →
      ConnectionId.nextIds c k = List.range' c k := by
  intro k
  induction k with
  | zero => intro c _; rfl
  | succ n ih =>
    intro c hc
    rcases n with _ | m
    · simp [ConnectionId.nextIds, ConnectionId.next, List.range']
    · have hlt : c + 1 < usizeSize := by omega
      show c :: ConnectionId.nextIds ((c + 1) % usizeSize) (m + 1) = List.range' c (m + 1 + 1)
      rw [Nat.mod_eq_of_lt hlt, ih (c + 1) (by omega)]
      rfl

/-- C8: as long as the 64-bit counter does not wrap (which would need
`2^64` allocations in one process), the ids produced by successive calls of
`ConnectionId::next` starting from the initial counter value 1 are strictly
increasing, pairwise distinct (never reused), and never the reserved zero
`DUMMY` sentinel. -/
theorem C8_connection_id_allocator (k : Nat) (h : NEXT_CONNECTION_ID + k ≤ usizeSize) :
    List.Chain' (· < ·) (ConnectionId.nextIds NEXT_CONNECTION_ID k) ∧
    (ConnectionId.nextIds NEXT_CONNECTION_ID k).Nodup ∧
    ConnectionId.DUMMY ∉ ConnectionId.nextIds NEXT_CONNECTION_ID k := by
  rw [nextIds_eq_range' k NEXT_CONNECTION_ID h]
  refine ⟨?_, ?_, ?_⟩
  · rw [List.chain'_iff_pairwise]
    exact List.pairwise_lt_range' _ _ 1 (Nat.le_refl 1)
  · exact List.nodup_range' _ _
  · intro hmem
    rw [List.mem_range'_1] at hmem
    simp [ConnectionId.DUMMY, NEXT_CONNECTION_ID] at hmem

/-- C8, witness: the first three allocated ids. -/
theorem C8_connection_id_allocator_witness :
    List.Chain' (· < ·) (ConnectionId.nextIds NEXT_CONNECTION_ID 3) ∧
    (ConnectionId.nextIds NEXT_CONNECTION_ID 3).Nodup ∧
    ConnectionId.DUMMY ∉ ConnectionId.nextIds NEXT_CONNECTION_ID 3 :=
  C8_connection_id_allocator 3 (by norm_num [NEXT_CONNECTION_ID, usizeSize])

/-- Byte-lexicographic order is total. -/
theorem leBytes_total : ∀ a b : List Nat, leBytes a b = true ∨ leBytes b a = true := by
  intro a
  induction a with
  | nil => intro b; left; rfl
  | cons x xs ih =>
    intro b
    rcases b with _ | ⟨y, ys⟩
    · right; rfl
    · by_cases hxy : x < y
      · left; simp [leBytes, hxy]
      · by_cases heq : x = y
        · subst heq
          rcases ih ys with h | h
          · left; simp [leBytes, h]
          · right; simp [leBytes, h]
        · right
          have hyx : y < x := by omega
          simp [leBytes, hyx]

/-- Inserting below a dominated head preserves sortedness. -/
theorem sortedProtocols_cons_insert :
    ∀ (ys : List (List Nat)) (y x : List Nat),
      sortedProtocols (y :: ys) = true → leBytes y x = true →
      sortedProtocols (y :: insertProtocol x ys) = true := by
  intro ys
  induction ys with
  | nil =>
    intro y x _ hyx
    show (leBytes y x && true) = true
    simp [hyx]
  | cons z zs ih =>
    intro y x hsort hyx
    have h1 : leBytes y z = true ∧ sortedProtocols (z :: zs) = true := by
      simpa [sortedProtocols] using hsort
    by_cases hxz : leBytes x z = true
    · have hins : insertProtocol x (z :: zs) = x :: z :: zs := by
        simp [insertProtocol, hxz]
      rw [hins]
      show (leBytes y x && (leBytes x z && sortedProtocols (z :: zs))) = true
      simp [hyx, hxz, h1.2]
    · have hzx : leBytes z x = true := by
        rcases leBytes_total x z with h | h
        · exact absurd h hxz
        · exact h
      have hins : insertProtocol x (z :: zs) = z :: insertProtocol x zs := by
        simp [insertProtocol, hxz]
      rw [hins]
      have h2 := ih z x h1.2 hzx
      show (leBytes y z && sortedProtocols (z :: insertProtocol x zs)) = true
      simp [h1.1, h2]

/-- Insertion preserves sortedness. -/
theorem sortedProtocols_insert :
    ∀ (l : List (List Nat)) (x : List Nat),
      sortedProtocols l = true → sortedProtocols (insertProtocol x l) = true := by
  intro l x hsort
  rcases l with _ | ⟨y, ys⟩
  · rfl
  · by_cases hxy : leBytes x y = true
    · have hins : insertProtocol x (y :: ys) = x :: y :: ys := by
        simp [insertProtocol, hxy]
      rw [hins]
      show (leBytes x y && sortedProtocols (y :: ys)) = true
      simp [hxy, hsort]
    · have hyx : leBytes y x = true := by
        rcases leBytes_total x y with h | h
        · exact absurd h hxy
        · exact h
      have hins : insertProtocol x (y :: ys) = y :: insertProtocol x ys := by
        simp [insertProtocol, hxy]
      rw [hins]
      exact sortedProtocols_cons_insert ys y x hsort hyx

/-- The sort used on collected protocol names produces a sorted list. -/
theorem sortedProtocols_sortProtocols :
    ∀ l : List (List Nat), sortedProtocols (sortProtocols l) = true := by
  intro l
  induction l with
  | nil => rfl
  | cons x xs ih => exact sortedProtocols_insert (sortProtocols xs) x ih

/-- One protocols-change step always leaves `supported_protocols` equal to
the collected list of the step, whether or not an event fired. -/
theorem protocolsChangeStep_snd (supported infos : List (List Nat)) :
    (protocolsChangeStep supported infos).2 = collectProtocols infos := by
  unfold protocolsChangeStep
  by_cases h : supported = collectProtocols infos <;> simp [h]

/-- Characterization of the event sequence produced by iterated
protocols-change steps, for an arbitrary initial `supported_protocols`. -/
theorem protocolsChangeRun_getD (seq : List (List (List Nat))) :
    ∀ (s0 : List (List Nat)) (i : Nat), i < seq.length →
      (protocolsChangeRun s0 seq).getD i none =
        (if collectProtocols (seq.getD i []) =
            (if i = 0 then s0 else collectProtocols (seq.getD (i - 1) [])) then none
         else some (collectProtocols (seq.getD i []))) := by
  induction seq with
  | nil => intro s0 i h; simp at h
  | cons x rest ih =>
    intro s0 i h
    rcases i with _ | j
    · simp only [protocolsChangeRun, List.getD_cons_zero, if_pos rfl]
      unfold protocolsChangeStep
      by_cases heq : s0 = collectProtocols x
      · simp [heq]
      · simp [heq, Ne.symm heq]
    · have hlen : j < rest.length := by simpa using h
      have hrec := ih (collectProtocols x) j hlen
      simp only [protocolsChangeRun, List.getD_cons_succ]
      rw [protocolsChangeStep_snd, hrec]
      rcases j with _ | m
      · simp
      · simp

/-- C3: with `supported_protocols` initially empty as in `Connection::new`,
for any sequence of `listen_protocol()` protocol-name lists, writing `P i`
for the collected (UTF-8-filtered and sorted) list of the `i`-th accepted
inbound substream, a `ProtocolsChange` with payload `P i` is delivered at
exactly those acceptances where `P i` differs from its predecessor (the
predecessor of the first being the initial empty list).  Moreover every
collected list is sorted, and collection is precisely the UTF-8 filter
followed by the sort. -/
theorem C3_protocols_change (seq : List (List (List Nat))) (i : Nat)
    (h : i < seq.length) :
    ((protocolsChangeRun [] seq).getD i none =
      (if collectProtocols (seq.getD i []) =
          (if i = 0 then [] else collectProtocols (seq.getD (i - 1) [])) then none
       else some (collectProtocols (seq.getD i [])))) ∧
    sortedProtocols (collectProtocols (seq.getD i [])) = true ∧
    (∀ infos, collectProtocols infos =
      sortProtocols (infos.filterMap fun b => if validUtf8 b then some b else none)) :=
  ⟨protocolsChangeRun_getD seq [] i h,
    sortedProtocols_sortProtocols _,
    fun _ => rfl⟩

/-- C3, witness: two acceptances with name lists `[[104]]` then `[[105]]`;
the second differs from the first, so the event at index 1 fires with the
new sorted list. -/
theorem C3_protocols_change_witness :
    (protocolsChangeRun [] [[[104]], [[105]]]).getD 1 none = some [[105]] := by
  have h := (C3_protocols_change [[[104]], [[105]]] 1 (by decide)).1
  simpa using h

section LoopTheorems

variable {UO UI E O C HE A IE : Type}

/-- The inbound-acceptance phase never produces `KeepAliveTimeout`. -/
theorem pollPhaseInbound_ne_kat (env : Env UO UI E O C HE A IE) (now : Nat)
    (s : Connection UO UI E O) (k : Counters) (tr : Trace UO UI E O A) :
    (pollPhaseInbound env now s k tr).1 ≠ some (.Err .KeepAliveTimeout) := by
  unfold pollPhaseInbound
  split
  · split <;> simp
  · simp

/-- The outbound-allocation phase never produces `KeepAliveTimeout`. -/
theorem pollPhaseOutbound_ne_kat (env : Env UO UI E O C HE A IE) (now : Nat)
    (s : Connection UO UI E O) (k : Counters) (tr : Trace UO UI E O A) :
    (pollPhaseOutbound env now s k tr).1 ≠ some (.Err .KeepAliveTimeout) := by
  unfold pollPhaseOutbound
  split
  · exact pollPhaseInbound_ne_kat env now s k tr
  · split
    · simp
    · exact pollPhaseInbound_ne_kat env now s _ tr
    · split
      · simp
      · simp

/-- The muxer-event phase never produces `KeepAliveTimeout`. -/
theorem pollPhaseMuxer_ne_kat (env : Env UO UI E O C HE A IE) (now : Nat)
    (s : Connection UO UI E O) (k : Counters) (tr : Trace UO UI E O A) :
    (pollPhaseMuxer env now s k tr).1 ≠ some (.Err .KeepAliveTimeout) := by
  unfold pollPhaseMuxer
  split
  · simp
  · simp
  · exact pollPhaseOutbound_ne_kat env now s _ tr

/-- If the shutdown phase returns `KeepAliveTimeout`, the returned state has
all three substream collections empty. -/
theorem pollPhaseShutdown_kat_empty (env : Env UO UI E O C HE A IE) (now : Nat)
    (s : Connection UO UI E O) (k : Counters) (tr : Trace UO UI E O A)
    (s1 : Connection UO UI E O) (k1 : Counters) (tr1 : Trace UO UI E O A)
    (h : pollPhaseShutdown env now s k tr = (some (.Err .KeepAliveTimeout), s1, k1, tr1)) :
    s1.negotiating_in = [] ∧ s1.negotiating_out = [] ∧ s1.requested_substreams = [] := by
  unfold pollPhaseShutdown at h
  simp only [] at h
  split at h
  case isTrue hempty =>
    split at h
    · exact absurd (congrArg (·.1) h) (pollPhaseMuxer_ne_kat env now _ _ tr)
    · simp only [Prod.mk.injEq] at h
      obtain ⟨-, hs1, -, -⟩ := h
      subst hs1
      simp only [Bool.and_eq_true, List.isEmpty_iff] at hempty
      exact ⟨hempty.1.1, hempty.1.2, hempty.2⟩
    · split at h
      · simp only [Prod.mk.injEq] at h
        obtain ⟨-, hs1, -, -⟩ := h
        subst hs1
        simp only [Bool.and_eq_true, List.isEmpty_iff] at hempty
        exact ⟨hempty.1.1, hempty.1.2, hempty.2⟩
      · exact absurd (congrArg (·.1) h) (pollPhaseMuxer_ne_kat env now _ _ tr)
  case isFalse =>
    exact absurd (congrArg (·.1) h) (pollPhaseMuxer_ne_kat env now _ _ tr)

/-- If the negotiating-inbound phase returns `KeepAliveTimeout`, the
returned state is idle. -/
theorem pollPhaseNegotiatingIn_kat_empty (env : Env UO UI E O C HE A IE) (now : Nat)
    (s : Connection UO UI E O) (k : Counters) (tr : Trace UO UI E O A)
    (s1 : Connection UO UI E O) (k1 : Counters) (tr1 : Trace UO UI E O A)
    (h : pollPhaseNegotiatingIn env now s k tr = (some (.Err .KeepAliveTimeout), s1, k1, tr1)) :
    s1.negotiating_in = [] ∧ s1.negotiating_out = [] ∧ s1.requested_substreams = [] := by
  unfold pollPhaseNegotiatingIn at h
  split at h
  · simp at h
  · simp at h
  · simp at h
  · exact pollPhaseShutdown_kat_empty env now _ k tr s1 k1 tr1 h
  · exact pollPhaseShutdown_kat_empty env now _ k tr s1 k1 tr1 h

/-- If the negotiating-outbound phase returns `KeepAliveTimeout`, the
returned state is idle. -/
theorem pollPhaseNegotiatingOut_kat_empty (env : Env UO UI E O C HE A IE) (now : Nat)
    (s : Connection UO UI E O) (k : Counters) (tr : Trace UO UI E O A)
    (s1 : Connection UO UI E O) (k1 : Counters) (tr1 : Trace UO UI E O A)
    (h : pollPhaseNegotiatingOut env now s k tr = (some (.Err .KeepAliveTimeout), s1, k1, tr1)) :
    s1.negotiating_in = [] ∧ s1.negotiating_out = [] ∧ s1.requested_substreams = [] := by
  unfold pollPhaseNegotiatingOut at h
  split at h
  · simp at h
  · simp at h
  · simp at h
  · exact pollPhaseNegotiatingIn_kat_empty env now _ k tr s1 k1 tr1 h
  · exact pollPhaseNegotiatingIn_kat_empty env now _ k tr s1 k1 tr1 h

/-- If the handler phase returns `KeepAliveTimeout`, the returned state is
idle. -/
theorem pollPhaseHandler_kat_empty (env : Env UO UI E O C HE A IE) (now : Nat)
    (s : Connection UO UI E O) (k : Counters) (tr : Trace UO UI E O A)
    (s1 : Connection UO UI E O) (k1 : Counters) (tr1 : Trace UO UI E O A)
    (h : pollPhaseHandler env now s k tr = (some (.Err .KeepAliveTimeout), s1, k1, tr1)) :
    s1.negotiating_in = [] ∧ s1.negotiating_out = [] ∧ s1.requested_substreams = [] := by
  unfold pollPhaseHandler at h
  split at h
  · exact pollPhaseNegotiatingOut_kat_empty env now s _ tr s1 k1 tr1 h
  · simp at h
  · simp at h
  · simp at h

/-- If one loop iteration returns `KeepAliveTimeout`, the returned state is
idle. -/
theorem pollStep_kat_empty (env : Env UO UI E O C HE A IE) (now : Nat)
    (s : Connection UO UI E O) (k : Counters) (tr : Trace UO UI E O A)
    (s1 : Connection UO UI E O) (k1 : Counters) (tr1 : Trace UO UI E O A)
    (h : pollStep env now s k tr = (some (.Err .KeepAliveTimeout), s1, k1, tr1)) :
    s1.negotiating_in = [] ∧ s1.negotiating_out = [] ∧ s1.requested_substreams = [] := by
  unfold pollStep at h
  split at h
  · simp at h
  · simp at h
  · exact pollPhaseHandler_kat_empty env now _ k tr s1 k1 tr1 h
  · exact pollPhaseHandler_kat_empty env now _ k tr s1 k1 tr1 h

/-- C2: the shutdown plan is acted upon only when `RequestedSubstreams`,
`NegotiatingIn` and `NegotiatingOut` are all empty.  First conjunct:
whenever `Connection::poll` returns `Err(KeepAliveTimeout)` — with any fuel,
oracle environment and starting state — the three collections are empty at
that moment.  Second conjunct: in an idle state where the handler and the
muxer are pending, a poll returns `Err(KeepAliveTimeout)` exactly when the
freshly evaluated plan fires (`Asap`, or `Later` with an elapsed timer) and
returns `Pending` otherwise (plan `None`, or `Later` with a live timer). -/
theorem C2_shutdown_only_when_idle (env : Env UO UI E O C HE A IE) (now : Nat) :
    (∀ (fuel : Nat) (s : Connection UO UI E O) (k : Counters) (tr : Trace UO UI E O A)
        (s1 : Connection UO UI E O) (k1 : Counters) (tr1 : Trace UO UI E O A),
      Connection.poll env now fuel s k tr = some (.Err .KeepAliveTimeout, s1, k1, tr1) →
      s1.negotiating_in = [] ∧ s1.negotiating_out = [] ∧ s1.requested_substreams = []) ∧
    (∀ (fuel : Nat) (s : Connection UO UI E O) (k : Counters) (tr : Trace UO UI E O A),
      s.requested_substreams = [] → s.negotiating_in = [] → s.negotiating_out = [] →
      (∀ n, env.handler_poll n = .Pending) →
      (∀ n, env.muxer_poll n = .Pending) →
      (∀ n, env.muxer_poll_outbound n = .Pending) →
      (∀ n, env.muxer_poll_inbound n = .Pending) →
      1 ≤ fuel →
      ∃ s1 k1,
        Connection.poll env now fuel s k tr =
          some
            (if shutdownReady
                (applyKeepAlive s.shutdown (env.connection_keep_alive k.keep_alives) now) now
             then .Err .KeepAliveTimeout else .Pending, s1, k1, tr)) := by
  constructor
  · intro fuel
    induction fuel with
    | zero =>
      intro s k tr s1 k1 tr1 h
      simp [Connection.poll] at h
    | succ n ih =>
      intro s k tr s1 k1 tr1 h
      unfold Connection.poll at h
      split at h
      · rename_i r s2 k2 tr2 heq
        simp only [Option.some.injEq, Prod.mk.injEq] at h
        obtain ⟨hr, hs, hk, htr⟩ := h
        subst hr; subst hs; subst hk; subst htr
        exact pollStep_kat_empty env now s k tr _ _ _ heq
      · rename_i s2 k2 tr2 heq
        exact ih s2 k2 tr2 s1 k1 tr1 h
  · intro fuel s k tr hreq hin hout hh hm hmo hmi hfuel
    obtain ⟨n, rfl⟩ : ∃ n, fuel = n + 1 := ⟨fuel - 1, by omega⟩
    have hstep1 :
        (pollStep env now s k tr).1 =
          some
            (if shutdownReady
                (applyKeepAlive s.shutdown (env.connection_keep_alive k.keep_alives) now) now
             then .Err .KeepAliveTimeout else .Pending) ∧
        (pollStep env now s k tr).2.2.2 = tr := by
      simp only [pollStep, pollPhaseHandler, pollPhaseNegotiatingOut, pollPhaseNegotiatingIn,
        pollPhaseShutdown, pollPhaseMuxer, pollPhaseOutbound, pollPhaseInbound,
        pollNextRequested, pollNextUpgrades, hreq, hin, hout, hh, hm, hmo, hmi,
        List.isEmpty_nil, Bool.and_self, if_true]
      rcases hka : applyKeepAlive s.shutdown (env.connection_keep_alive k.keep_alives) now with
        _ | _ | ⟨t, d⟩
      · by_cases hcap : 0 < s.max_negotiating_inbound_streams
        · constructor <;> simp [shutdownReady, hcap]
        · constructor <;> simp [shutdownReady, hcap]
      · constructor <;> simp [shutdownReady]
      · by_cases hts : t ≤ now
        · constructor <;> simp [shutdownReady, hts]
        · by_cases hcap : 0 < s.max_negotiating_inbound_streams
          · constructor <;> simp [shutdownReady, hts, hcap]
          · constructor <;> simp [shutdownReady, hts, hcap]
    rcases hps : pollStep env now s k tr with ⟨ro, s1, k1, tr1⟩
    rw [hps] at hstep1
    obtain ⟨hro, htr1⟩ := hstep1
    simp only at hro htr1
    subst hro
    subst htr1
    refine ⟨s1, k1, ?_⟩
    unfold Connection.poll
    rw [hps]

/-- Polling a collection of upgrades never grows it. -/
theorem pollNextUpgrades_length {U E O : Type} (now : Nat) :
    ∀ (l : List (SubstreamUpgrade U E O)) (p) (l1 : List (SubstreamUpgrade U E O)),
      pollNextUpgrades now l = .ok (p, l1) → l1.length ≤ l.length := by
  intro l
  induction l with
  | nil =>
    intro p l1 h
    simp only [pollNextUpgrades, Except.ok.injEq, Prod.mk.injEq] at h
    simp [← h.2]
  | cons u rest ih =>
    intro p l1 h
    unfold pollNextUpgrades at h
    split at h
    · simp at h
    · simp only [Except.ok.injEq, Prod.mk.injEq] at h
      obtain ⟨-, hl⟩ := h
      simp [← hl]
    · split at h
      · simp at h
      · rename_i rest1 heq
        simp only [Except.ok.injEq, Prod.mk.injEq] at h
        obtain ⟨-, hl⟩ := h
        have := ih _ _ heq
        simp [← hl]
        omega
      · rename_i rest1 heq
        simp only [Except.ok.injEq, Prod.mk.injEq] at h
        obtain ⟨-, hl⟩ := h
        have := ih _ _ heq
        simp [← hl]
        omega
      · rename_i rest1 heq
        simp only [Except.ok.injEq, Prod.mk.injEq] at h
        obtain ⟨-, hl⟩ := h
        have := ih _ _ heq
        simp [← hl]
        omega

variable {UO UI E O C HE A IE : Type}

/-- C5 invariant transfer through the inbound-acceptance phase. -/
theorem pollPhaseInbound_c5 (env : Env UO UI E O C HE A IE) (now : Nat)
    (s : Connection UO UI E O) (k : Counters) (tr : Trace UO UI E O A)
    (res : Option (PollResult C A HE IE)) (s1 : Connection UO UI E O)
    (k1 : Counters) (tr1 : Trace UO UI E O A)
    (h : pollPhaseInbound env now s k tr = (res, s1, k1, tr1))
    (hinv : s.negotiating_in.length ≤ s.max_negotiating_inbound_streams) :
    s1.negotiating_in.length ≤ s1.max_negotiating_inbound_streams ∧
    s1.max_negotiating_inbound_streams = s.max_negotiating_inbound_streams ∧
    (s.max_negotiating_inbound_streams = 0 →
      k1.muxer_inbounds = k.muxer_inbounds ∧ k1.listen_protocols = k.listen_protocols) := by
  unfold pollPhaseInbound at h
  split at h
  case isTrue hcap =>
    split at h
    · simp only [Prod.mk.injEq] at h
      obtain ⟨-, hs1, hk1, -⟩ := h
      subst hs1; subst hk1
      exact ⟨hinv, rfl, fun h0 => absurd hcap (by omega)⟩
    · simp only [Prod.mk.injEq] at h
      obtain ⟨-, hs1, hk1, -⟩ := h
      subst hs1; subst hk1
      exact ⟨hinv, rfl, fun h0 => absurd hcap (by omega)⟩
    · simp only [Prod.mk.injEq] at h
      obtain ⟨-, hs1, hk1, -⟩ := h
      subst hs1; subst hk1
      refine ⟨?_, rfl, fun h0 => absurd hcap (by omega)⟩
      simp only [List.length_append, List.length_cons, List.length_nil]
      omega
  case isFalse hcap =>
    simp only [Prod.mk.injEq] at h
    obtain ⟨-, hs1, hk1, -⟩ := h
    subst hs1; subst hk1
    exact ⟨hinv, rfl, fun _ => ⟨rfl, rfl⟩⟩

/-- C5 invariant transfer through the outbound-allocation phase. -/
theorem pollPhaseOutbound_c5 (env : Env UO UI E O C HE A IE) (now : Nat)
    (s : Connection UO UI E O) (k : Counters) (tr : Trace UO UI E O A)
    (res : Option (PollResult C A HE IE)) (s1 : Connection UO UI E O)
    (k1 : Counters) (tr1 : Trace UO UI E O A)
    (h : pollPhaseOutbound env now s k tr = (res, s1, k1, tr1))
    (hinv : s.negotiating_in.length ≤ s.max_negotiating_inbound_streams) :
    s1.negotiating_in.length ≤ s1.max_negotiating_inbound_streams ∧
    s1.max_negotiating_inbound_streams = s.max_negotiating_inbound_streams ∧
    (s.max_negotiating_inbound_streams = 0 →
      k1.muxer_inbounds = k.muxer_inbounds ∧ k1.listen_protocols = k.listen_protocols) := by
  unfold pollPhaseOutbound at h
  split at h
  · have hrec := pollPhaseInbound_c5 env now _ _ tr res s1 k1 tr1 h hinv
    exact hrec
  · split at h
    · simp only [Prod.mk.injEq] at h
      obtain ⟨-, hs1, hk1, -⟩ := h
      subst hs1; subst hk1
      exact ⟨hinv, rfl, fun _ => ⟨rfl, rfl⟩⟩
    · have hrec := pollPhaseInbound_c5 env now _ _ tr res s1 k1 tr1 h hinv
      exact hrec
    · split at h
      · simp only [Prod.mk.injEq] at h
        obtain ⟨-, hs1, hk1, -⟩ := h
        subst hs1; subst hk1
        exact ⟨hinv, rfl, fun _ => ⟨rfl, rfl⟩⟩
      · simp only [Prod.mk.injEq] at h
        obtain ⟨-, hs1, hk1, -⟩ := h
        subst hs1; subst hk1
        exact ⟨hinv, rfl, fun _ => ⟨rfl, rfl⟩⟩

/-- C5 invariant transfer through the muxer-event phase. -/
theorem pollPhaseMuxer_c5 (env : Env UO UI E O C HE A IE) (now : Nat)
    (s : Connection UO UI E O) (k : Counters) (tr : Trace UO UI E O A)
    (res : Option (PollResult C A HE IE)) (s1 : Connection UO UI E O)
    (k1 : Counters) (tr1 : Trace UO UI E O A)
    (h : pollPhaseMuxer env now s k tr = (res, s1, k1, tr1))
    (hinv : s.negotiating_in.length ≤ s.max_negotiating_inbound_streams) :
    s1.negotiating_in.length ≤ s1.max_negotiating_inbound_streams ∧
    s1.max_negotiating_inbound_streams = s.max_negotiating_inbound_streams ∧
    (s.max_negotiating_inbound_streams = 0 →
      k1.muxer_inbounds = k.muxer_inbounds ∧ k1.listen_protocols = k.listen_protocols) := by
  unfold pollPhaseMuxer at h
  split at h
  · simp only [Prod.mk.injEq] at h
    obtain ⟨-, hs1, hk1, -⟩ := h
    subst hs1; subst hk1
    exact ⟨hinv, rfl, fun _ => ⟨rfl, rfl⟩⟩
  · simp only [Prod.mk.injEq] at h
    obtain ⟨-, hs1, hk1, -⟩ := h
    subst hs1; subst hk1
    exact ⟨hinv, rfl, fun _ => ⟨rfl, rfl⟩⟩
  · have hrec := pollPhaseOutbound_c5 env now _ _ tr res s1 k1 tr1 h hinv
    exact hrec

/-- C5 invariant transfer through the keep-alive and shutdown phase. -/
theorem pollPhaseShutdown_c5 (env : Env UO UI E O C HE A IE) (now : Nat)
    (s : Connection UO UI E O) (k : Counters) (tr : Trace UO UI E O A)
    (res : Option (PollResult C A HE IE)) (s1 : Connection UO UI E O)
    (k1 : Counters) (tr1 : Trace UO UI E O A)
    (h : pollPhaseShutdown env now s k tr = (res, s1, k1, tr1))
    (hinv : s.negotiating_in.length ≤ s.max_negotiating_inbound_streams) :
    s1.negotiating_in.length ≤ s1.max_negotiating_inbound_streams ∧
    s1.max_negotiating_inbound_streams = s.max_negotiating_inbound_streams ∧
    (s.max_negotiating_inbound_streams = 0 →
      k1.muxer_inbounds = k.muxer_inbounds ∧ k1.listen_protocols = k.listen_protocols) := by
  unfold pollPhaseShutdown at h
  simp only [] at h
  split at h
  · split at h
    · have hrec := pollPhaseMuxer_c5 env now _ _ tr res s1 k1 tr1 h hinv
      exact hrec
    · simp only [Prod.mk.injEq] at h
      obtain ⟨-, hs1, hk1, -⟩ := h
      subst hs1; subst hk1
      exact ⟨hinv, rfl, fun _ => ⟨rfl, rfl⟩⟩
    · split at h
      · simp only [Prod.mk.injEq] at h
        obtain ⟨-, hs1, hk1, -⟩ := h
        subst hs1; subst hk1
        exact ⟨hinv, rfl, fun _ => ⟨rfl, rfl⟩⟩
      · have hrec := pollPhaseMuxer_c5 env now _ _ tr res s1 k1 tr1 h hinv
        exact hrec
  · have hrec := pollPhaseMuxer_c5 env now _ _ tr res s1 k1 tr1 h hinv
    exact hrec

/-- C5 invariant transfer through the negotiating-inbound phase. -/
theorem pollPhaseNegotiatingIn_c5 (env : Env UO UI E O C HE A IE) (now : Nat)
    (s : Connection UO UI E O) (k : Counters) (tr : Trace UO UI E O A)
    (res : Option (PollResult C A HE IE)) (s1 : Connection UO UI E O)
    (k1 : Counters) (tr1 : Trace UO UI E O A)
    (h : pollPhaseNegotiatingIn env now s k tr = (res, s1, k1, tr1))
    (hinv : s.negotiating_in.length ≤ s.max_negotiating_inbound_streams) :
    s1.negotiating_in.length ≤ s1.max_negotiating_inbound_streams ∧
    s1.max_negotiating_inbound_streams = s.max_negotiating_inbound_streams ∧
    (s.max_negotiating_inbound_streams = 0 →
      k1.muxer_inbounds = k.muxer_inbounds ∧ k1.listen_protocols = k.listen_protocols) := by
  unfold pollPhaseNegotiatingIn at h
  split at h
  · simp only [Prod.mk.injEq] at h
    obtain ⟨-, hs1, hk1, -⟩ := h
    subst hs1; subst hk1
    exact ⟨hinv, rfl, fun _ => ⟨rfl, rfl⟩⟩
  · rename_i l heq
    simp only [Prod.mk.injEq] at h
    obtain ⟨-, hs1, hk1, -⟩ := h
    subst hs1; subst hk1
    refine ⟨?_, rfl, fun _ => ⟨rfl, rfl⟩⟩
    have := pollNextUpgrades_length now s.negotiating_in _ _ heq
    simp only
    omega
  · rename_i l heq
    simp only [Prod.mk.injEq] at h
    obtain ⟨-, hs1, hk1, -⟩ := h
    subst hs1; subst hk1
    refine ⟨?_, rfl, fun _ => ⟨rfl, rfl⟩⟩
    have := pollNextUpgrades_length now s.negotiating_in _ _ heq
    simp only
    omega
  · rename_i l heq
    have := pollNextUpgrades_length now s.negotiating_in _ _ heq
    have h5 := pollPhaseShutdown_c5 env now _ _ tr res s1 k1 tr1 h (by simp only; omega)
    simpa using h5
  · rename_i l heq
    have := pollNextUpgrades_length now s.negotiating_in _ _ heq
    have h5 := pollPhaseShutdown_c5 env now _ _ tr res s1 k1 tr1 h (by simp only; omega)
    simpa using h5

/-- C5 invariant transfer through the negotiating-outbound phase. -/
theorem pollPhaseNegotiatingOut_c5 (env : Env UO UI E O C HE A IE) (now : Nat)
    (s : Connection UO UI E O) (k : Counters) (tr : Trace UO UI E O A)
    (res : Option (PollResult C A HE IE)) (s1 : Connection UO UI E O)
    (k1 : Counters) (tr1 : Trace UO UI E O A)
    (h : pollPhaseNegotiatingOut env now s k tr = (res, s1, k1, tr1))
    (hinv : s.negotiating_in.length ≤ s.max_negotiating_inbound_streams) :
    s1.negotiating_in.length ≤ s1.max_negotiating_inbound_streams ∧
    s1.max_negotiating_inbound_streams = s.max_negotiating_inbound_streams ∧
    (s.max_negotiating_inbound_streams = 0 →
      k1.muxer_inbounds = k.muxer_inbounds ∧ k1.listen_protocols = k.listen_protocols) := by
  unfold pollPhaseNegotiatingOut at h
  split at h
  · simp only [Prod.mk.injEq] at h
    obtain ⟨-, hs1, hk1, -⟩ := h
    subst hs1; subst hk1
    exact ⟨hinv, rfl, fun _ => ⟨rfl, rfl⟩⟩
  · simp only [Prod.mk.injEq] at h
    obtain ⟨-, hs1, hk1, -⟩ := h
    subst hs1; subst hk1
    exact ⟨hinv, rfl, fun _ => ⟨rfl, rfl⟩⟩
  · simp only [Prod.mk.injEq] at h
    obtain ⟨-, hs1, hk1, -⟩ := h
    subst hs1; subst hk1
    exact ⟨hinv, rfl, fun _ => ⟨rfl, rfl⟩⟩
  · have hrec := pollPhaseNegotiatingIn_c5 env now _ _ tr res s1 k1 tr1 h hinv
    exact hrec
  · have hrec := pollPhaseNegotiatingIn_c5 env now _ _ tr res s1 k1 tr1 h hinv
    exact hrec

/-- C5 invariant transfer through the handler phase. -/
theorem pollPhaseHandler_c5 (env : Env UO UI E O C HE A IE) (now : Nat)
    (s : Connection UO UI E O) (k : Counters) (tr : Trace UO UI E O A)
    (res : Option (PollResult C A HE IE)) (s1 : Connection UO UI E O)
    (k1 : Counters) (tr1 : Trace UO UI E O A)
    (h : pollPhaseHandler env now s k tr = (res, s1, k1, tr1))
    (hinv : s.negotiating_in.length ≤ s.max_negotiating_inbound_streams) :
    s1.negotiating_in.length ≤ s1.max_negotiating_inbound_streams ∧
    s1.max_negotiating_inbound_streams = s.max_negotiating_inbound_streams ∧
    (s.max_negotiating_inbound_streams = 0 →
      k1.muxer_inbounds = k.muxer_inbounds ∧ k1.listen_protocols = k.listen_protocols) := by
  unfold pollPhaseHandler at h
  split at h
  · have hrec := pollPhaseNegotiatingOut_c5 env now _ _ tr res s1 k1 tr1 h hinv
    exact hrec
  · simp only [Prod.mk.injEq] at h
    obtain ⟨-, hs1, hk1, -⟩ := h
    subst hs1; subst hk1
    exact ⟨hinv, rfl, fun _ => ⟨rfl, rfl⟩⟩
  · simp only [Prod.mk.injEq] at h
    obtain ⟨-, hs1, hk1, -⟩ := h
    subst hs1; subst hk1
    exact ⟨hinv, rfl, fun _ => ⟨rfl, rfl⟩⟩
  · simp only [Prod.mk.injEq] at h
    obtain ⟨-, hs1, hk1, -⟩ := h
    subst hs1; subst hk1
    exact ⟨hinv, rfl, fun _ => ⟨rfl, rfl⟩⟩

/-- C5 invariant transfer through one loop iteration. -/
theorem pollStep_c5 (env : Env UO UI E O C HE A IE) (now : Nat)
    (s : Connection UO UI E O) (k : Counters) (tr : Trace UO UI E O A)
    (res : Option (PollResult C A HE IE)) (s1 : Connection UO UI E O)
    (k1 : Counters) (tr1 : Trace UO UI E O A)
    (h : pollStep env now s k tr = (res, s1, k1, tr1))
    (hinv : s.negotiating_in.length ≤ s.max_negotiating_inbound_streams) :
    s1.negotiating_in.length ≤ s1.max_negotiating_inbound_streams ∧
    s1.max_negotiating_inbound_streams = s.max_negotiating_inbound_streams ∧
    (s.max_negotiating_inbound_streams = 0 →
      k1.muxer_inbounds = k.muxer_inbounds ∧ k1.listen_protocols = k.listen_protocols) := by
  unfold pollStep at h
  split at h
  · simp only [Prod.mk.injEq] at h
    obtain ⟨-, hs1, hk1, -⟩ := h
    subst hs1; subst hk1
    exact ⟨hinv, rfl, fun _ => ⟨rfl, rfl⟩⟩
  · simp only [Prod.mk.injEq] at h
    obtain ⟨-, hs1, hk1, -⟩ := h
    subst hs1; subst hk1
    exact ⟨hinv, rfl, fun _ => ⟨rfl, rfl⟩⟩
  · have hrec := pollPhaseHandler_c5 env now _ _ tr res s1 k1 tr1 h hinv
    exact hrec
  · have hrec := pollPhaseHandler_c5 env now _ _ tr res s1 k1 tr1 h hinv
    exact hrec

/-- C5: the `NegotiatingIn` cap.  First conjunct: any poll of the connection
preserves `negotiating_in.length <= max_negotiating_inbound_streams` (the
cap itself never changes), and with cap 0 the muxer is never asked for an
inbound substream (its inbound-poll counter and the `listen_protocol`
counter stay untouched, so nothing is accepted).  Second conjunct: the
acceptance phase consults the inbound muxer oracle only when the collection
is strictly under the cap. -/
theorem C5_negotiating_in_cap (env : Env UO UI E O C HE A IE) (now : Nat) :
    (∀ (fuel : Nat) (s : Connection UO UI E O) (k : Counters) (tr : Trace UO UI E O A)
        (r : PollResult C A HE IE) (s1 : Connection UO UI E O) (k1 : Counters)
        (tr1 : Trace UO UI E O A),
      Connection.poll env now fuel s k tr = some (r, s1, k1, tr1) →
      s.negotiating_in.length ≤ s.max_negotiating_inbound_streams →
      s1.negotiating_in.length ≤ s1.max_negotiating_inbound_streams ∧
      s1.max_negotiating_inbound_streams = s.max_negotiating_inbound_streams ∧
      (s.max_negotiating_inbound_streams = 0 →
        k1.muxer_inbounds = k.muxer_inbounds ∧
        k1.listen_protocols = k.listen_protocols)) ∧
    (∀ (s : Connection UO UI E O) (k : Counters) (tr : Trace UO UI E O A),
      s.max_negotiating_inbound_streams ≤ s.negotiating_in.length →
      (pollPhaseInbound env now s k tr).2.2.1.muxer_inbounds = k.muxer_inbounds) := by
  constructor
  · intro fuel
    induction fuel with
    | zero =>
      intro s k tr r s1 k1 tr1 h hinv
      simp [Connection.poll] at h
    | succ n ih =>
      intro s k tr r s1 k1 tr1 h hinv
      unfold Connection.poll at h
      split at h
      · rename_i r2 s2 k2 tr2 heq
        simp only [Option.some.injEq, Prod.mk.injEq] at h
        obtain ⟨hr, hs, hk, htr⟩ := h
        subst hr; subst hs; subst hk; subst htr
        exact pollStep_c5 env now s k tr _ _ _ _ heq hinv
      · rename_i s2 k2 tr2 heq
        have hstep := pollStep_c5 env now s k tr _ _ _ _ heq hinv
        have hrec := ih s2 k2 tr2 r s1 k1 tr1 h hstep.1
        refine ⟨hrec.1, hrec.2.1.trans hstep.2.1, fun h0 => ?_⟩
        have h2 := hstep.2.2 h0
        have h0s : s2.max_negotiating_inbound_streams = 0 := hstep.2.1.trans h0
        have h3 := hrec.2.2 h0s
        exact ⟨h3.1.trans h2.1, h3.2.trans h2.2⟩
  · intro s k tr hge
    unfold pollPhaseInbound
    rw [if_neg (by omega)]

/-- C5, witness: a poll of a fresh idle connection with cap 2 preserves the
cap invariant. -/
theorem C5_negotiating_in_cap_witness :
    ({ connEmpty with shutdown := Shutdown.Asap } :
        Connection Nat Nat Nat Nat).negotiating_in.length ≤
      ({ connEmpty with shutdown := Shutdown.Asap } :
        Connection Nat Nat Nat Nat).max_negotiating_inbound_streams :=
  ((C5_negotiating_in_cap envIdleNo 5).1 1 connEmpty counters0 []
      (.Err .KeepAliveTimeout) { connEmpty with shutdown := .Asap }
      ⟨1, 1, 0, 0, 0, 0⟩ [] rfl (by decide)).1

/-- An `Ok(AddressChange)` return from the inbound phase is impossible. -/
theorem pollPhaseInbound_addr (env : Env UO UI E O C HE A IE) (now : Nat)
    (s : Connection UO UI E O) (k : Counters) (tr : Trace UO UI E O A) (a : A)
    (s1 : Connection UO UI E O) (k1 : Counters) (tr1 : Trace UO UI E O A)
    (h : pollPhaseInbound env now s k tr = (some (.Ok (.AddressChange a)), s1, k1, tr1)) :
    tr1.getLast? = some (.AddressChange a) := by
  unfold pollPhaseInbound at h
  split at h
  · split at h <;> simp at h
  · simp at h

/-- An `Ok(AddressChange)` return survives the outbound phase only through
the inbound phase (where it is impossible). -/
theorem pollPhaseOutbound_addr (env : Env UO UI E O C HE A IE) (now : Nat)
    (s : Connection UO UI E O) (k : Counters) (tr : Trace UO UI E O A) (a : A)
    (s1 : Connection UO UI E O) (k1 : Counters) (tr1 : Trace UO UI E O A)
    (h : pollPhaseOutbound env now s k tr = (some (.Ok (.AddressChange a)), s1, k1, tr1)) :
    tr1.getLast? = some (.AddressChange a) := by
  unfold pollPhaseOutbound at h
  split at h
  · exact pollPhaseInbound_addr env now _ _ tr a s1 k1 tr1 h
  · split at h
    · simp at h
    · exact pollPhaseInbound_addr env now _ _ tr a s1 k1 tr1 h
    · split at h
      · simp at h
      · simp at h

/-- When the muxer-event phase returns `Ok(AddressChange(a))`, the event was
also just delivered to the handler: it is the last entry of the trace. -/
theorem pollPhaseMuxer_addr (env : Env UO UI E O C HE A IE) (now : Nat)
    (s : Connection UO UI E O) (k : Counters) (tr : Trace UO UI E O A) (a : A)
    (s1 : Connection UO UI E O) (k1 : Counters) (tr1 : Trace UO UI E O A)
    (h : pollPhaseMuxer env now s k tr = (some (.Ok (.AddressChange a)), s1, k1, tr1)) :
    tr1.getLast? = some (.AddressChange a) := by
  unfold pollPhaseMuxer at h
  split at h
  · simp at h
  · rename_i a2 heq
    simp only [Prod.mk.injEq, Option.some.injEq, PollResult.Ok.injEq,
      Event.AddressChange.injEq] at h
    obtain ⟨ha, -, -, htr⟩ := h
    subst ha
    rw [← htr]
    exact List.getLast?_concat tr
  · exact pollPhaseOutbound_addr env now _ _ tr a s1 k1 tr1 h

/-- `Ok(AddressChange)` propagation through the shutdown phase. -/
theorem pollPhaseShutdown_addr (env : Env UO UI E O C HE A IE) (now : Nat)
    (s : Connection UO UI E O) (k : Counters) (tr : Trace UO UI E O A) (a : A)
    (s1 : Connection UO UI E O) (k1 : Counters) (tr1 : Trace UO UI E O A)
    (h : pollPhaseShutdown env now s k tr = (some (.Ok (.AddressChange a)), s1, k1, tr1)) :
    tr1.getLast? = some (.AddressChange a) := by
  unfold pollPhaseShutdown at h
  simp only [] at h
  split at h
  · split at h
    · exact pollPhaseMuxer_addr env now _ _ tr a s1 k1 tr1 h
    · simp at h
    · split at h
      · simp at h
      · exact pollPhaseMuxer_addr env now _ _ tr a s1 k1 tr1 h
  · exact pollPhaseMuxer_addr env now _ _ tr a s1 k1 tr1 h

/-- `Ok(AddressChange)` propagation through the negotiating-inbound phase. -/
theorem pollPhaseNegotiatingIn_addr (env : Env UO UI E O C HE A IE) (now : Nat)
    (s : Connection UO UI E O) (k : Counters) (tr : Trace UO UI E O A) (a : A)
    (s1 : Connection UO UI E O) (k1 : Counters) (tr1 : Trace UO UI E O A)
    (h : pollPhaseNegotiatingIn env now s k tr =
      (some (.Ok (.AddressChange a)), s1, k1, tr1)) :
    tr1.getLast? = some (.AddressChange a) := by
  unfold pollPhaseNegotiatingIn at h
  split at h
  · simp at h
  · simp at h
  · simp at h
  · exact pollPhaseShutdown_addr env now _ _ tr a s1 k1 tr1 h
  · exact pollPhaseShutdown_addr env now _ _ tr a s1 k1 tr1 h

/-- `Ok(AddressChange)` propagation through the negotiating-outbound
phase. -/
theorem pollPhaseNegotiatingOut_addr (env : Env UO UI E O C HE A IE) (now : Nat)
    (s : Connection UO UI E O) (k : Counters) (tr : Trace UO UI E O A) (a : A)
    (s1 : Connection UO UI E O) (k1 : Counters) (tr1 : Trace UO UI E O A)
    (h : pollPhaseNegotiatingOut env now s k tr =
      (some (.Ok (.AddressChange a)), s1, k1, tr1)) :
    tr1.getLast? = some (.AddressChange a) := by
  unfold pollPhaseNegotiatingOut at h
  split at h
  · simp at h
  · simp at h
  · simp at h
  · exact pollPhaseNegotiatingIn_addr env now _ _ tr a s1 k1 tr1 h
  · exact pollPhaseNegotiatingIn_addr env now _ _ tr a s1 k1 tr1 h

/-- `Ok(AddressChange)` propagation through the handler phase. -/
theorem pollPhaseHandler_addr (env : Env UO UI E O C HE A IE) (now : Nat)
    (s : Connection UO UI E O) (k : Counters) (tr : Trace UO UI E O A) (a : A)
    (s1 : Connection UO UI E O) (k1 : Counters) (tr1 : Trace UO UI E O A)
    (h : pollPhaseHandler env now s k tr = (some (.Ok (.AddressChange a)), s1, k1, tr1)) :
    tr1.getLast? = some (.AddressChange a) := by
  unfold pollPhaseHandler at h
  split at h
  · exact pollPhaseNegotiatingOut_addr env now _ _ tr a s1 k1 tr1 h
  · simp at h
  · simp at h
  · simp at h

/-- `Ok(AddressChange)` propagation through one loop iteration. -/
theorem pollStep_addr (env : Env UO UI E O C HE A IE) (now : Nat)
    (s : Connection UO UI E O) (k : Counters) (tr : Trace UO UI E O A) (a : A)
    (s1 : Connection UO UI E O) (k1 : Counters) (tr1 : Trace UO UI E O A)
    (h : pollStep env now s k tr = (some (.Ok (.AddressChange a)), s1, k1, tr1)) :
    tr1.getLast? = some (.AddressChange a) := by
  unfold pollStep at h
  split at h
  · simp at h
  · simp at h
  · exact pollPhaseHandler_addr env now _ _ tr a s1 k1 tr1 h
  · exact pollPhaseHandler_addr env now _ _ tr a s1 k1 tr1 h

/-- C2, witness: an idle connection whose handler answers `KeepAlive::No`
is terminated with `KeepAliveTimeout` on the next poll. -/
theorem C2_shutdown_only_when_idle_witness :
    ∃ s1 k1,
      Connection.poll envIdleNo 5 1 connEmpty counters0 [] =
        some (.Err .KeepAliveTimeout, s1, k1, []) := by
  have h := (C2_shutdown_only_when_idle envIdleNo 5).2 1 connEmpty counters0 []
    rfl rfl rfl (fun _ => rfl) (fun _ => rfl) (fun _ => rfl) (fun _ => rfl) (by decide)
  simpa [envIdleNo, connEmpty, applyKeepAlive, shutdownReady] using h

/-- C9: address-change fan-out.  First conjunct: whenever a poll of the
connection returns `Ready(Ok(Event::AddressChange(addr)))`, the very same
event was delivered to the handler in that poll — it is the last entry of
the event trace.  Second conjunct: when the muxer-event oracle answers
`AddressChange(addr)` and control reaches the muxer poll (idle collections,
pending handler, non-firing shutdown plan), the poll both appends the
`AddressChange` handler event and returns it to the caller. -/
theorem C9_address_change_fanout (env : Env UO UI E O C HE A IE) (now : Nat) :
    (∀ (fuel : Nat) (s : Connection UO UI E O) (k : Counters) (tr : Trace UO UI E O A)
        (a : A) (s1 : Connection UO UI E O) (k1 : Counters) (tr1 : Trace UO UI E O A),
      Connection.poll env now fuel s k tr = some (.Ok (.AddressChange a), s1, k1, tr1) →
      tr1.getLast? = some (.AddressChange a)) ∧
    (∀ (s : Connection UO UI E O) (k : Counters) (tr : Trace UO UI E O A) (a : A)
        (fuel : Nat),
      env.muxer_poll k.muxer_polls = .AddressChange a →
      s.requested_substreams = [] → s.negotiating_in = [] → s.negotiating_out = [] →
      env.handler_poll k.handler_polls = .Pending →
      shutdownReady (applyKeepAlive s.shutdown (env.connection_keep_alive k.keep_alives) now)
          now = false →
      1 ≤ fuel →
      ∃ s1 k1,
        Connection.poll env now fuel s k tr =
          some (.Ok (.AddressChange a), s1, k1, tr ++ [.AddressChange a])) := by
  constructor
  · intro fuel
    induction fuel with
    | zero =>
      intro s k tr a s1 k1 tr1 h
      simp [Connection.poll] at h
    | succ n ih =>
      intro s k tr a s1 k1 tr1 h
      unfold Connection.poll at h
      split at h
      · rename_i r2 s2 k2 tr2 heq
        simp only [Option.some.injEq, Prod.mk.injEq] at h
        obtain ⟨hr, hs, hk, htr⟩ := h
        subst hr; subst hs; subst hk; subst htr
        exact pollStep_addr env now s k tr a _ _ _ heq
      · rename_i s2 k2 tr2 heq
        exact ih s2 k2 tr2 a s1 k1 tr1 h
  · intro s k tr a fuel hmux hreq hin hout hh hsr hfuel
    obtain ⟨n, rfl⟩ : ∃ n, fuel = n + 1 := ⟨fuel - 1, by omega⟩
    have hstep1 :
        (pollStep env now s k tr).1 = some (.Ok (.AddressChange a)) ∧
        (pollStep env now s k tr).2.2.2 = tr ++ [.AddressChange a] := by
      simp only [pollStep, pollPhaseHandler, pollPhaseNegotiatingOut, pollPhaseNegotiatingIn,
        pollPhaseShutdown, pollPhaseMuxer, pollNextRequested, pollNextUpgrades,
        hreq, hin, hout, hh, hmux, List.isEmpty_nil, Bool.and_self, if_true]
      rcases hka : applyKeepAlive s.shutdown (env.connection_keep_alive k.keep_alives) now with
        _ | _ | ⟨t, d⟩
      · constructor <;> simp
      · rw [hka] at hsr
        simp [shutdownReady] at hsr
      · rw [hka] at hsr
        simp only [shutdownReady, decide_eq_false_iff_not] at hsr
        constructor <;> simp [hsr]
    rcases hps : pollStep env now s k tr with ⟨ro, s1, k1, tr1⟩
    rw [hps] at hstep1
    obtain ⟨hro, htr1⟩ := hstep1
    simp only at hro htr1
    subst hro
    subst htr1
    refine ⟨s1, k1, ?_⟩
    unfold Connection.poll
    rw [hps]

/-- C9, witness: a muxer reporting `AddressChange(42)` on an idle
connection makes the first poll both deliver the event to the handler and
return it. -/
theorem C9_address_change_fanout_witness :
    ∃ s1 k1,
      Connection.poll envAddrChange 5 1 connEmpty counters0 [] =
        some (.Ok (.AddressChange 42), s1, k1, [ConnectionEvent.AddressChange 42]) := by
  have h := (C9_address_change_fanout envAddrChange 5).2 connEmpty counters0 [] 42 1
    rfl rfl rfl rfl rfl (by decide) (by decide)
  simpa using h

end LoopTheorems

end Swarm
